import Mathlib

/-!
Verification of the SmartAgentDeploy trading-agent core (`src/ai/agent.py`),
shallowly embedded in Lean 4.  Floats are modelled as rationals, pandas
DataFrames as lists of bars, and the external model / filesystem as explicit
parameters.
-/

set_option maxHeartbeats 1000000

/-- One OHLCV market bar (a row of the market-data DataFrame).
`open` is a Lean keyword, so the open price field is `open_`. -/
structure Bar where
  timestamp : Int
  open_ : ℚ
  high : ℚ
  low : ℚ
  close : ℚ
  volume : ℚ
deriving DecidableEq

/-- A feature row: the `[['open','high','low','close','volume']].values` row
of a bar, as used by `preprocess_data`. -/
structure Row where
  open_ : ℚ
  high : ℚ
  low : ℚ
  close : ℚ
  volume : ℚ
deriving DecidableEq

def zeroRow : Row := ⟨0, 0, 0, 0, 0⟩

def rowOf (b : Bar) : Row := ⟨b.open_, b.high, b.low, b.close, b.volume⟩

/-- Insert a bar into a list sorted by ascending timestamp. -/
def insertBar (b : Bar) : List Bar → List Bar
  | [] => [b]
  | x :: xs => if b.timestamp ≤ x.timestamp then b :: x :: xs else x :: insertBar b xs

/-- `data.sort_values('timestamp')`: sort the bars by ascending timestamp. -/
def sortBars : List Bar → List Bar
  | [] => []
  | b :: bs => insertBar b (sortBars bs)

/-- Column-wise minimum of a feature matrix (0 on an empty matrix). -/
def colMin (f : Row → ℚ) : List Row → ℚ
  | [] => 0
  | r :: rs => rs.foldl (fun m x => min m (f x)) (f r)

/-- Column-wise maximum of a feature matrix (0 on an empty matrix). -/
def colMax (f : Row → ℚ) : List Row → ℚ
  | [] => 0
  | r :: rs => rs.foldl (fun m x => max m (f x)) (f r)

/-- `MinMaxScaler(feature_range=(0,1))` scaling of one value: `(v - min)/(max - min)`,
with a zero column range replaced by 1 (sklearn's `_handle_zeros_in_scale`). -/
def scaleVal (lo hi v : ℚ) : ℚ := if hi = lo then v - lo else (v - lo) / (hi - lo)

/-- `self.scaler.fit_transform(features)`: fit a min-max scaler per column over the
whole matrix and scale every entry. -/
def minMaxScale (rows : List Row) : List Row :=
  let loO := colMin (·.open_) rows
  let hiO := colMax (·.open_) rows
  let loH := colMin (·.high) rows
  let hiH := colMax (·.high) rows
  let loL := colMin (·.low) rows
  let hiL := colMax (·.low) rows
  let loC := colMin (·.close) rows
  let hiC := colMax (·.close) rows
  let loV := colMin (·.volume) rows
  let hiV := colMax (·.volume) rows
  rows.map fun r =>
    ⟨scaleVal loO hiO r.open_, scaleVal loH hiH r.high, scaleVal loL hiL r.low,
     scaleVal loC hiC r.close, scaleVal loV hiV r.volume⟩

/-- `AIAgent.preprocess_data`: sort by timestamp, take the OHLCV feature matrix,
scale it, and for `i in range(len(scaled) - sequence_length)` emit the window
`scaled[i : i+L]` and the label `features[i+L, 3] > features[i+L-1, 3]`
(column 3 of the unscaled features is the close price). -/
def preprocess_data (data : List Bar) (sequence_length : ℕ) : List (List Row) × List Bool :=
  let sorted := sortBars data
  let features := sorted.map rowOf
  let scaled := minMaxScale features
  let n := scaled.length
  ((List.range (n - sequence_length)).map fun i => (scaled.drop i).take sequence_length,
   (List.range (n - sequence_length)).map fun i =>
     decide ((features.getD (i + sequence_length) zeroRow).close >
             (features.getD (i + sequence_length - 1) zeroRow).close))

/-- The `predict` entry guard: `X, _ = preprocess_data(market_data)` followed by
`if len(X) == 0: raise ValueError("Not enough data for prediction after preprocessing")`. -/
def predictX (data : List Bar) (sequence_length : ℕ) :
    Except String (List (List Row)) :=
  let X := (preprocess_data data sequence_length).1
  if X.isEmpty then Except.error "Not enough data for prediction after preprocessing"
  else Except.ok X

def exceptOk {ε α : Type} : Except ε α → Bool
  | Except.ok _ => true
  | Except.error _ => false

/-- Trading signals / reported actions: the strings `'buy'`, `'sell'`, `'hold'`. -/
inductive Signal where
  | buy
  | sell
  | hold
deriving DecidableEq

/-- The signal thresholding of `AIAgent.predict`:
`'buy' if p > 0.5 + 0.1*risk_level else 'sell' if p < 0.5 - 0.1*risk_level else 'hold'`. -/
def signalOf (latest_pred risk_level : ℚ) : Signal :=
  if latest_pred > 1/2 + (1/10) * risk_level then Signal.buy
  else if latest_pred < 1/2 - (1/10) * risk_level then Signal.sell
  else Signal.hold

/-- `confidence = abs(latest_pred - 0.5) * 2` from `AIAgent.predict`. -/
def confidenceOf (latest_pred : ℚ) : ℚ := |latest_pred - 1/2| * 2

/-- The position dict threaded through `execute_strategy`:
`{'in_position': bool, 'buy_price': float, 'quantity': float}`. -/
structure Position where
  in_position : Bool
  buy_price : ℚ
  quantity : ℚ
deriving DecidableEq

/-- The default position `execute_strategy` builds when `position is None`. -/
def defaultPosition : Position := ⟨false, 0, 0⟩

/-- The result dict of `execute_strategy` (the fields the engine computes;
timestamp and the nested prediction are omitted). -/
structure StepResult where
  action : Signal
  price : ℚ
  balance : ℚ
  position : Position
  profit_loss : ℚ
deriving DecidableEq

/-- The decision core of `AIAgent.execute_strategy` (lines 250-305), as a pure
step function of the already-derived signal and confidence.  On
`buy ∧ not in_position`: size the position `balance*confidence*risk_level`,
divide by `current_price` (no price validation exists in the code), enter the
position and debit the balance.  On `sell ∧ in_position`: realize
`quantity*price - quantity*buy_price`, credit the balance, reset the position.
Otherwise hold: nothing mutated, unrealized P/L reported when in a position;
on the buy branch the Python `profit_loss if 'profit_loss' in locals() else 0`
fallback makes the reported profit_loss 0. -/
def execute_strategy (signal : Signal) (confidence risk_level current_price balance : ℚ)
    (position? : Option Position) : StepResult :=
  let position := position?.getD defaultPosition
  if signal = Signal.buy ∧ position.in_position = false then
    let position_size := balance * confidence * risk_level
    let quantity := position_size / current_price
    { action := Signal.buy, price := current_price, balance := balance - position_size,
      position := ⟨true, current_price, quantity⟩, profit_loss := 0 }
  else if signal = Signal.sell ∧ position.in_position = true then
    let position_value := position.quantity * current_price
    let profit_loss := position_value - position.quantity * position.buy_price
    { action := Signal.sell, price := current_price, balance := balance + position_value,
      position := ⟨false, 0, 0⟩, profit_loss := profit_loss }
  else
    { action := Signal.hold, price := current_price, balance := balance, position := position,
      profit_loss :=
        if position.in_position then (current_price - position.buy_price) * position.quantity
        else 0 }

/-- A trade record appended to the `trades` ledger in `AIAgent.evaluate`:
`{'action', 'price', ...}` plus `'profit_loss'` present only on sells. -/
structure BTrade where
  action : Signal
  price : ℚ
  profit_loss : Option ℚ
deriving DecidableEq

/-- The mutable state of the trading simulation loop in `AIAgent.evaluate`:
`balance`, `position` (initially `None`) and the `trades` ledger. -/
structure BTState where
  balance : ℚ
  position : Option Position
  trades : List BTrade
deriving DecidableEq

/-- `position is not None and position['in_position']`. -/
def holding (st : BTState) : Bool :=
  match st.position with
  | none => false
  | some p => p.in_position

/-- One iteration of the `for i in range(len(y_pred))` loop of `AIAgent.evaluate`:
`signal = 'buy' if y_pred[i] > 0.5 else 'sell'` (where `y_pred[i] = 1` iff the
model probability exceeds 0.5), `price = test_data['close'].iloc[i + 60]`.
Buying when not in a position goes all-in (`quantity = balance / price`,
balance set to 0) and appends a buy record; selling while in a position sets
`balance = quantity * price`, appends a sell record carrying
`(price - buy_price) * quantity`, and clears only the `in_position` flag
(the code does not reset `buy_price`/`quantity` here); otherwise no change. -/
def btStep (prices preds : List ℚ) (st : BTState) (i : ℕ) : BTState :=
  let isBuy : Bool := decide (preds.getD i 0 > 1/2)
  let price : ℚ := prices.getD (i + 60) 0
  if isBuy = true ∧ holding st = false then
    { balance := 0,
      position := some ⟨true, price, st.balance / price⟩,
      trades := st.trades ++ [⟨Signal.buy, price, none⟩] }
  else if isBuy = false ∧ holding st = true then
    let p := st.position.getD defaultPosition
    { balance := p.quantity * price,
      position := some ⟨false, p.buy_price, p.quantity⟩,
      trades := st.trades ++ [⟨Signal.sell, price, some ((price - p.buy_price) * p.quantity)⟩] }
  else st

/-- The full trading simulation of `AIAgent.evaluate`: start from
`balance = 10000.0`, `position = None`, empty ledger, and fold the loop body
over `i in range(len(y_pred))`.  `prices` is the `close` column of
`test_data`; `preds` the model's per-window probabilities. -/
def btRun (prices preds : List ℚ) : BTState :=
  (List.range preds.length).foldl (btStep prices preds) ⟨10000, none, []⟩

/-- Sell trades of a ledger: `[t for t in trades if t.get('action') == 'sell']`. -/
def sellTrades (ts : List BTrade) : List BTrade :=
  ts.filter fun t => decide (t.action = Signal.sell)

/-- Winning trades: `[t for t in trades if t.get('action') == 'sell' and t.get('profit_loss', 0) > 0]`. -/
def winningTrades (ts : List BTrade) : List BTrade :=
  ts.filter fun t => decide (t.action = Signal.sell ∧ t.profit_loss.getD 0 > 0)

/-- The trading metrics of `AIAgent.evaluate` (the classification metrics,
computed by sklearn from the external model, are out of scope). -/
structure BTMetrics where
  profit_loss : ℚ
  profit_loss_pct : ℚ
  win_rate : ℚ
  num_trades : ℕ
  final_balance : ℚ
deriving DecidableEq

/-- The tail of `AIAgent.evaluate` (lines 469-492): if still in a position,
mark-to-market `balance = quantity * test_data['close'].iloc[-1]`; then
`profit_loss = balance - 10000.0`, `profit_loss_pct`, the zero-guarded win
rate, `num_trades` = number of sell trades and `final_balance`. -/
def btEvaluate (prices preds : List ℚ) : BTMetrics :=
  let st := btRun prices preds
  let balance :=
    if holding st = true then (st.position.getD defaultPosition).quantity * prices.getLastD 0
    else st.balance
  let profit_loss := balance - 10000
  let sells := sellTrades st.trades
  let wins := winningTrades st.trades
  { profit_loss := profit_loss,
    profit_loss_pct := profit_loss / 10000 * 100,
    win_rate := if 0 < sells.length then (wins.length : ℚ) / (sells.length : ℚ) else 0,
    num_trades := sells.length,
    final_balance := balance }

/-- A JSON-shaped value, for the `metadata: map<string, any>` field. -/
inductive JVal where
  | num : ℚ → JVal
  | str : String → JVal
  | bool : Bool → JVal
  | arr : List JVal → JVal
  | obj : List (String × JVal) → JVal

/-- The in-memory fields of an `AIAgent` that `to_dict` serializes
(model, scaler and filesystem paths are external and not part of the record). -/
structure Agent where
  agent_id : String
  name : String
  strategy_type : String
  risk_level : ℚ
  trained : Bool
  performance_metrics : List (String × ℚ)
  metadata : List (String × JVal)

/-- The dictionary produced by `AIAgent.to_dict` (all seven keys always present). -/
structure AgentDict where
  agent_id : String
  name : String
  strategy_type : String
  risk_level : ℚ
  trained : Bool
  performance_metrics : List (String × ℚ)
  metadata : List (String × JVal)

/-- `AIAgent.to_dict`. -/
def to_dict (a : Agent) : AgentDict :=
  ⟨a.agent_id, a.name, a.strategy_type, a.risk_level, a.trained,
   a.performance_metrics, a.metadata⟩

/-- `AIAgent.__init__`.  `fresh_id` stands for `str(int(time.time()))`, used when
`agent_id` is absent or falsy (the empty string); `metadata or {}` maps an
empty dict to an empty dict.  A new agent starts untrained with the four
zeroed performance metrics. -/
def initAgent (fresh_id : String) (agent_id : Option String) (name strategy_type : String)
    (risk_level : ℚ) (metadata : Option (List (String × JVal))) : Agent :=
  { agent_id :=
      match agent_id with
      | none => fresh_id
      | some s => if s = "" then fresh_id else s,
    name := name,
    strategy_type := strategy_type,
    risk_level := risk_level,
    trained := false,
    performance_metrics :=
      [("accuracy", 0), ("profit_loss", 0), ("win_rate", 0), ("sharpe_ratio", 0)],
    metadata :=
      match metadata with
      | none => []
      | some m => if m.isEmpty then [] else m }

/-- The contents of a persisted `metadata.json`, each key optional
(`metadata.get(key, default)` in `load_model`). -/
structure DiskMeta where
  name : Option String
  strategy_type : Option String
  risk_level : Option ℚ
  trained : Option Bool
  performance_metrics : Option (List (String × ℚ))
  metadata : Option (List (String × JVal))

/-- The field effect of `AIAgent.load_model`, with the filesystem passed in
explicitly: `disk = none` models a missing model file (`load_model` returns
`False` without touching any field, or no `metadata.json` exists); `some d`
models a present artifact whose `metadata.json` fields overwrite the agent
via `metadata.get(key, current)` (with `trained` defaulting to `False` and
`metadata` to `{}`). -/
def load_model_fields (a : Agent) (disk : Option DiskMeta) : Agent :=
  match disk with
  | none => a
  | some d =>
    { a with
      name := d.name.getD a.name,
      strategy_type := d.strategy_type.getD a.strategy_type,
      risk_level := d.risk_level.getD a.risk_level,
      trained := d.trained.getD false,
      performance_metrics := d.performance_metrics.getD a.performance_metrics,
      metadata := d.metadata.getD [] }

/-- `AIAgent.from_dict`: construct via `__init__` with the record's fields
(defaults cannot fire since `to_dict` emits every key), then set `trained`
and `performance_metrics` from the record, and, if trained, run `load_model`
(its filesystem passed in as `disk`). -/
def from_dict (fresh_id : String) (d : AgentDict) (disk : Option DiskMeta) : Agent :=
  let a := initAgent fresh_id (some d.agent_id) d.name d.strategy_type d.risk_level
    (some d.metadata)
  let a := { a with trained := d.trained, performance_metrics := d.performance_metrics }
  if a.trained then load_model_fields a disk else a

/-- `other a` is the action that must follow `a` in an alternating ledger. -/
def otherAction : Signal → Signal
  | Signal.buy => Signal.sell
  | Signal.sell => Signal.buy
  | Signal.hold => Signal.hold

/-- `altFrom a ts` holds when the actions of `ts` are `a, other a, a, ...`. -/
def altFrom : Signal → List BTrade → Bool
  | _, [] => true
  | a, t :: ts => decide (t.action = a) && altFrom (otherAction a) ts

/-- Number of buy records in a ledger. -/
def cntBuy (ts : List BTrade) : ℕ :=
  (ts.filter fun t => decide (t.action = Signal.buy)).length

/-- Number of sell records in a ledger. -/
def cntSell (ts : List BTrade) : ℕ :=
  (ts.filter fun t => decide (t.action = Signal.sell)).length

/-! Concrete data used by the witness theorems. -/

/-- Two already-sorted bars, for exercising the windower at `N = 2`, `L = 1`. -/
def c1data : List Bar := [⟨0, 1, 2, 0, 5, 10⟩, ⟨1, 2, 3, 1, 6, 20⟩]

/-- 61 close prices: sixty 1s then a 2. -/
def wPrices : List ℚ := List.replicate 60 1 ++ [2]

/-- One probability above 0.5: the simulated run buys once and ends holding. -/
def wPreds : List ℚ := [9/10]

/-- 62 close prices: sixty 1s, then 2 and 4. -/
def wPrices2 : List ℚ := List.replicate 60 1 ++ [2, 4]

/-- Buy then sell: the simulated run realizes one winning sell trade. -/
def wPreds2 : List ℚ := [9/10, 1/10]

/-- A concrete agent record for the round-trip witness. -/
def wAgent : Agent :=
  ⟨"a1", "Momentum", "lstm", 1/2, false, [("accuracy", 7/10)], [("exchange", JVal.str "nyse")]⟩

/-! Helper lemmas. -/

theorem length_insertBar (b : Bar) (l : List Bar) :
    (insertBar b l).length = l.length + 1 := by
  induction l with
  | nil => rfl
  | cons x xs ih =>
    simp only [insertBar]
    split <;> simp [ih]

theorem length_sortBars (l : List Bar) : (sortBars l).length = l.length := by
  induction l with
  | nil => rfl
  | cons b bs ih => simp [sortBars, length_insertBar, ih]

theorem length_minMaxScale (rows : List Row) :
    (minMaxScale rows).length = rows.length := by
  simp [minMaxScale]

/-! Claim theorems. -/

/-- C2: for every probability `p ∈ [0,1]` and `risk_level r ∈ [0,1]`, the signal is
`buy` iff `p > 0.5 + 0.1*r`, `sell` iff `p < 0.5 - 0.1*r`, `hold` otherwise
(strictly, so at `r = 0.5` probability `0.55` yields `hold` and `0.551` yields
`buy`), and the confidence equals `|p - 0.5| * 2` and lies in `[0,1]`. -/
theorem signal_thresholds (p r : ℚ) (hp0 : 0 ≤ p) (hp1 : p ≤ 1)
    (hr0 : 0 ≤ r) (hr1 : r ≤ 1) :
    (p > 1/2 + (1/10) * r → signalOf p r = Signal.buy) ∧
    (p < 1/2 - (1/10) * r → signalOf p r = Signal.sell) ∧
    (1/2 - (1/10) * r ≤ p → p ≤ 1/2 + (1/10) * r → signalOf p r = Signal.hold) ∧
    signalOf (55/100) (1/2) = Signal.hold ∧
    signalOf (551/1000) (1/2) = Signal.buy ∧
    confidenceOf p = |p - 1/2| * 2 ∧
    0 ≤ confidenceOf p ∧ confidenceOf p ≤ 1 := by
  refine ⟨?_, ?_, ?_, by norm_num [signalOf], by norm_num [signalOf], rfl, ?_, ?_⟩
  · intro h
    unfold signalOf
    rw [if_pos h]
  · intro h
    have hngt : ¬ p > 1/2 + (1/10) * r := by linarith
    unfold signalOf
    rw [if_neg hngt, if_pos h]
  · intro h1 h2
    have hngt : ¬ p > 1/2 + (1/10) * r := by linarith
    have hnlt : ¬ p < 1/2 - (1/10) * r := by linarith
    unfold signalOf
    rw [if_neg hngt, if_neg hnlt]
  · exact mul_nonneg (abs_nonneg _) (by norm_num)
  · have habs : |p - 1/2| ≤ 1/2 := abs_le.mpr ⟨by linarith, by linarith⟩
    calc confidenceOf p = |p - 1/2| * 2 := rfl
      _ ≤ 1/2 * 2 := by linarith
      _ = 1 := by norm_num

/-- C2 witness: the thresholds instantiated at `p = 0.96`, `r = 0.5`. -/
theorem signal_thresholds_witness :
    signalOf (96/100) (1/2) = Signal.buy ∧
    0 ≤ confidenceOf (96/100) ∧ confidenceOf (96/100) ≤ 1 := by
  have h := signal_thresholds (96/100) (1/2) (by norm_num) (by norm_num)
    (by norm_num) (by norm_num)
  exact ⟨h.1 (by norm_num), h.2.2.2.2.2.2.1, h.2.2.2.2.2.2.2⟩

/-- C4: acting on a buy signal from a FLAT state (`in_position = false`, also the
`position is None` default) at a price `p > 0` with balance `b`, confidence `c`
and risk level `r` enters a LONG position with entry price `p`, quantity
`b*c*r / p`, and new balance `b - b*c*r`, reporting action `buy`. -/
theorem flat_buy_transition (b c r p : ℚ) (position? : Option Position)
    (hflat : (position?.getD defaultPosition).in_position = false) (hp : 0 < p) :
    execute_strategy Signal.buy c r p b position? =
      { action := Signal.buy, price := p, balance := b - b * c * r,
        position := ⟨true, p, b * c * r / p⟩, profit_loss := 0 } := by
  simp [execute_strategy, hflat]

/-- C4 witness: balance 1000, confidence 1, risk 1, price 100 gives quantity 10,
balance 0, LONG. -/
theorem flat_buy_transition_witness :
    execute_strategy Signal.buy 1 1 100 1000 none =
      { action := Signal.buy, price := 100, balance := 0,
        position := ⟨true, 100, 10⟩, profit_loss := 0 } := by
  rw [flat_buy_transition 1000 1 1 100 none rfl (by norm_num)]
  norm_num

/-- C5: acting on a sell signal from a LONG state (entry `e`, quantity `q`,
balance `b`) at price `p` realizes `q*p - q*e`, credits the balance to
`b + q*p`, and resets the position to FLAT with zeroed fields. -/
theorem long_sell_transition (b c r p e q : ℚ) :
    execute_strategy Signal.sell c r p b (some ⟨true, e, q⟩) =
      { action := Signal.sell, price := p, balance := b + q * p,
        position := ⟨false, 0, 0⟩, profit_loss := q * p - q * e } := by
  simp [execute_strategy]

/-- C5 witness: quantity 10 at entry 100 with balance 0 sold at 120 realizes
200 and leaves balance 1200. -/
theorem long_sell_transition_witness :
    execute_strategy Signal.sell 1 1 120 0 (some ⟨true, 100, 10⟩) =
      { action := Signal.sell, price := 120, balance := 1200,
        position := ⟨false, 0, 0⟩, profit_loss := 200 } := by
  rw [long_sell_transition 0 1 1 120 100 10]
  norm_num

/-- C6: a `hold` signal, a `sell` while FLAT, or a `buy` while LONG reports the
action `hold`, leaves balance and every position field unchanged, and reports
unrealized P/L `(price - entry) * quantity` when in a position and 0 otherwise. -/
theorem hold_frame (sig : Signal) (c r p b : ℚ) (pos : Position)
    (h : sig = Signal.hold ∨ (sig = Signal.sell ∧ pos.in_position = false) ∨
         (sig = Signal.buy ∧ pos.in_position = true)) :
    execute_strategy sig c r p b (some pos) =
      { action := Signal.hold, price := p, balance := b, position := pos,
        profit_loss :=
          if pos.in_position then (p - pos.buy_price) * pos.quantity else 0 } := by
  rcases h with h | ⟨h, hpos⟩ | ⟨h, hpos⟩
  · subst h
    simp [execute_strategy]
  · subst h
    simp [execute_strategy, hpos]
  · subst h
    simp [execute_strategy, hpos]

/-- C6 witness: a hold while LONG with entry 50 and quantity 2 at price 60
reports unrealized P/L 20 and mutates nothing. -/
theorem hold_frame_witness :
    execute_strategy Signal.hold 1 1 60 500 (some ⟨true, 50, 2⟩) =
      { action := Signal.hold, price := 60, balance := 500,
        position := ⟨true, 50, 2⟩, profit_loss := 20 } := by
  rw [hold_frame Signal.hold 1 1 60 500 ⟨true, 50, 2⟩ (Or.inl rfl)]
  norm_num

/-- C3 counterexample: a buy from FLAT at the non-positive price `-1` does not
fail at all — no `InvalidPriceError` exists anywhere in the code — and the
step divides by the negative price, completing with action `buy` and the
negative quantity `1000 / (-1) = -1000`. -/
theorem no_price_guard_counterexample :
    execute_strategy Signal.buy 1 1 (-1) 1000 none =
      { action := Signal.buy, price := -1, balance := 0,
        position := ⟨true, -1, -1000⟩, profit_loss := 0 } ∧
    (execute_strategy Signal.buy 1 1 (-1) 1000 none).position.quantity < 0 := by
  constructor <;> norm_num [execute_strategy, defaultPosition]

/-- C3 amended: the step performs no price validation: a buy from FLAT with
`current_price < 0` (and likewise `= 0`) raises no error and computes
`quantity = balance*confidence*risk_level / current_price` by dividing by the
non-positive price, reporting a normal `buy` action. -/
theorem no_price_guard (b c r p : ℚ) (position? : Option Position)
    (hflat : (position?.getD defaultPosition).in_position = false) (hp : p < 0) :
    execute_strategy Signal.buy c r p b position? =
      { action := Signal.buy, price := p, balance := b - b * c * r,
        position := ⟨true, p, b * c * r / p⟩, profit_loss := 0 } := by
  simp [execute_strategy, hflat]

/-- C3 amended witness: buying from FLAT at price `-2` completes normally with
quantity `-500`. -/
theorem no_price_guard_witness :
    execute_strategy Signal.buy 1 1 (-2) 1000 (some defaultPosition) =
      { action := Signal.buy, price := -2, balance := 0,
        position := ⟨true, -2, -500⟩, profit_loss := 0 } := by
  rw [no_price_guard 1000 1 1 (-2) (some defaultPosition) rfl (by norm_num)]
  norm_num

/-- C1: preprocessing a market table of `N` rows with window length `L ≥ 1`
yields exactly `N - L` windows and labels; window `i` is the slice `[i, i+L)`
of the scaled feature matrix, label `i` is `close[i+L] > close[i+L-1]` on the
unscaled (sorted) close prices, and the consuming `predict` guard succeeds
iff `L < N` (i.e. it raises its insufficient-data error iff `N ≤ L`). -/
theorem windowing_spec (data : List Bar) (L : ℕ) (hL : 0 < L) :
    (preprocess_data data L).1.length = data.length - L ∧
    (preprocess_data data L).2.length = data.length - L ∧
    (∀ i, i < data.length - L →
      (preprocess_data data L).1[i]? =
        some (((minMaxScale ((sortBars data).map rowOf)).drop i).take L)) ∧
    (∀ i, i < data.length - L →
      (preprocess_data data L).2[i]? =
        some (decide ((((sortBars data).map rowOf).getD (i + L) zeroRow).close >
                      (((sortBars data).map rowOf).getD (i + L - 1) zeroRow).close))) ∧
    (exceptOk (predictX data L) = true ↔ L < data.length) := by
  have hn : (minMaxScale ((sortBars data).map rowOf)).length = data.length := by
    rw [length_minMaxScale, List.length_map, length_sortBars]
  refine ⟨?_, ?_, ?_, ?_, ?_⟩
  · simp [preprocess_data, hn]
  · simp [preprocess_data, hn]
  · intro i hi
    simp only [preprocess_data, List.getElem?_map, hn]
    rw [List.getElem?_range hi]
    rfl
  · intro i hi
    simp only [preprocess_data, List.getElem?_map, hn]
    rw [List.getElem?_range hi]
    rfl
  · have hlen : (preprocess_data data L).1.length = data.length - L := by
      simp [preprocess_data, hn]
    unfold predictX
    constructor
    · intro h
      by_contra hcon
      have hz : data.length - L = 0 := by omega
      have : (preprocess_data data L).1.isEmpty = true := by
        rw [List.isEmpty_iff_length_eq_zero, hlen, hz]
      rw [if_pos this] at h
      simp [exceptOk] at h
    · intro h
      have hz : ¬ (preprocess_data data L).1.isEmpty = true := by
        rw [List.isEmpty_iff_length_eq_zero, hlen]
        omega
      rw [if_neg hz]
      rfl

/-- C1 witness: the windowing spec instantiated at a 2-row table with `L = 1`:
one window, whose label compares the unscaled closes 6 > 5. -/
theorem windowing_spec_witness :
    0 < 1 ∧
    ((preprocess_data c1data 1).1.length = c1data.length - 1 ∧
     (preprocess_data c1data 1).2.length = c1data.length - 1 ∧
     (∀ i, i < c1data.length - 1 →
       (preprocess_data c1data 1).1[i]? =
         some (((minMaxScale ((sortBars c1data).map rowOf)).drop i).take 1)) ∧
     (∀ i, i < c1data.length - 1 →
       (preprocess_data c1data 1).2[i]? =
         some (decide ((((sortBars c1data).map rowOf).getD (i + 1) zeroRow).close >
                       (((sortBars c1data).map rowOf).getD (i + 1 - 1) zeroRow).close))) ∧
     (exceptOk (predictX c1data 1) = true ↔ 1 < c1data.length)) ∧
    (preprocess_data c1data 1).2 = [true] :=
  ⟨by decide, windowing_spec c1data 1 (by decide), by decide⟩

theorem otherAction_otherAction (a : Signal) : otherAction (otherAction a) = a := by
  cases a <;> rfl

theorem altFrom_append (ts : List BTrade) (a : Signal) (t : BTrade) :
    altFrom a (ts ++ [t]) =
      (altFrom a ts &&
        decide (t.action = if ts.length % 2 = 0 then a else otherAction a)) := by
  induction ts generalizing a with
  | nil => simp [altFrom]
  | cons x xs ih =>
    simp only [List.cons_append, altFrom, List.length_cons, List.append_eq]
    rw [ih (otherAction a)]
    rcases Nat.mod_two_eq_zero_or_one xs.length with hp | hp
    · have hp1 : (xs.length + 1) % 2 = 1 := by omega
      simp [hp, hp1, otherAction_otherAction, Bool.and_assoc]
    · have hp1 : (xs.length + 1) % 2 = 0 := by omega
      simp [hp, hp1, otherAction_otherAction, Bool.and_assoc]

theorem btStep_inv (prices preds : List ℚ) (st : BTState) (i : ℕ)
    (h1 : altFrom Signal.buy st.trades = true)
    (h2 : holding st = true ↔ st.trades.length % 2 = 1) :
    altFrom Signal.buy (btStep prices preds st i).trades = true ∧
    (holding (btStep prices preds st i) = true ↔
      (btStep prices preds st i).trades.length % 2 = 1) := by
  simp only [btStep]
  split
  · next hc =>
    have heven : st.trades.length % 2 = 0 := by
      rcases Nat.mod_two_eq_zero_or_one st.trades.length with hp | hp
      · exact hp
      · exact absurd (h2.mpr hp) (by simp [hc.2])
    constructor
    · rw [altFrom_append, h1]
      simp [heven]
    · constructor
      · intro hx
        simp only [List.length_append, List.length_singleton]
        omega
      · intro hx
        rfl
  · split
    · next hc =>
      have hodd : st.trades.length % 2 = 1 := h2.mp hc.2
      constructor
      · rw [altFrom_append, h1]
        simp [hodd, otherAction]
      · constructor
        · intro hx
          exact absurd hx (by simp [holding])
        · intro hx
          simp only [List.length_append, List.length_singleton] at hx
          omega
    · exact ⟨h1, h2⟩

theorem btFold_inv (prices preds : List ℚ) (idxs : List ℕ) (st : BTState)
    (h1 : altFrom Signal.buy st.trades = true)
    (h2 : holding st = true ↔ st.trades.length % 2 = 1) :
    altFrom Signal.buy (idxs.foldl (btStep prices preds) st).trades = true ∧
    (holding (idxs.foldl (btStep prices preds) st) = true ↔
      (idxs.foldl (btStep prices preds) st).trades.length % 2 = 1) := by
  induction idxs generalizing st with
  | nil => exact ⟨h1, h2⟩
  | cons i is ih =>
    have h := btStep_inv prices preds st i h1 h2
    exact ih (btStep prices preds st i) h.1 h.2

theorem btRun_inv (prices preds : List ℚ) :
    altFrom Signal.buy (btRun prices preds).trades = true ∧
    (holding (btRun prices preds) = true ↔
      (btRun prices preds).trades.length % 2 = 1) := by
  unfold btRun
  exact btFold_inv prices preds (List.range preds.length) ⟨10000, none, []⟩ rfl (by simp [holding])

theorem altFrom_head (a : Signal) (ts : List BTrade) (h : altFrom a ts = true) :
    (ts.head?.all fun t => decide (t.action = a)) = true := by
  cases ts with
  | nil => rfl
  | cons t ts =>
    simp only [altFrom, Bool.and_eq_true, decide_eq_true_eq] at h
    simp [h.1]

theorem altFrom_chain (ts : List BTrade) :
    ∀ a, (a = Signal.buy ∨ a = Signal.sell) → altFrom a ts = true →
    List.Chain' (fun s t => s.action ≠ t.action) ts := by
  induction ts with
  | nil =>
    intro a _ _
    simp
  | cons t ts ih =>
    intro a ha h
    simp only [altFrom, Bool.and_eq_true, decide_eq_true_eq] at h
    cases ts with
    | nil => simp
    | cons u us =>
      have h2 := h.2
      simp only [altFrom, Bool.and_eq_true, decide_eq_true_eq] at h2
      rw [List.chain'_cons]
      constructor
      · rw [h.1, h2.1]
        rcases ha with ha | ha <;> subst ha <;> simp [otherAction]
      · refine ih (otherAction a) ?_ h.2
        rcases ha with ha | ha <;> subst ha <;> simp [otherAction]

theorem altFrom_counts (ts : List BTrade) :
    ∀ a, altFrom a ts = true →
    (a = Signal.buy → cntBuy ts = cntSell ts ∨ cntBuy ts = cntSell ts + 1) ∧
    (a = Signal.sell → cntSell ts = cntBuy ts ∨ cntSell ts = cntBuy ts + 1) := by
  induction ts with
  | nil =>
    intro a _
    constructor <;> intro _ <;> left <;> rfl
  | cons t ts ih =>
    intro a h
    simp only [altFrom, Bool.and_eq_true, decide_eq_true_eq] at h
    obtain ⟨hact, hrest⟩ := h
    have IH := ih (otherAction a) hrest
    constructor
    · intro ha
      subst ha
      have hb : cntBuy (t :: ts) = cntBuy ts + 1 := by
        simp [cntBuy, List.filter_cons, hact]
      have hs : cntSell (t :: ts) = cntSell ts := by
        simp [cntSell, List.filter_cons, hact]
      have := IH.2 rfl
      omega
    · intro ha
      subst ha
      have hb : cntBuy (t :: ts) = cntBuy ts := by
        simp [cntBuy, List.filter_cons, hact]
      have hs : cntSell (t :: ts) = cntSell ts + 1 := by
        simp [cntSell, List.filter_cons, hact]
      have := IH.1 rfl
      omega

/-- C10: in every ledger produced by the backtest loop, the first record (if
any) is a buy, actions strictly alternate, and the number of buy records
exceeds the number of sell records by 0 or 1. -/
theorem ledger_alternation (prices preds : List ℚ) :
    ((btRun prices preds).trades.head?.all fun t => decide (t.action = Signal.buy)) = true ∧
    List.Chain' (fun s t => s.action ≠ t.action) (btRun prices preds).trades ∧
    (cntBuy (btRun prices preds).trades = cntSell (btRun prices preds).trades ∨
     cntBuy (btRun prices preds).trades = cntSell (btRun prices preds).trades + 1) := by
  obtain ⟨h1, _⟩ := btRun_inv prices preds
  exact ⟨altFrom_head _ _ h1, altFrom_chain _ _ (Or.inl rfl) h1,
    (altFrom_counts _ _ h1).1 rfl⟩

/-- C10 witness: the alternation facts at a concrete buy-then-sell run. -/
theorem ledger_alternation_witness :
    ((btRun wPrices2 wPreds2).trades.head?.all fun t => decide (t.action = Signal.buy)) = true ∧
    List.Chain' (fun s t => s.action ≠ t.action) (btRun wPrices2 wPreds2).trades ∧
    (cntBuy (btRun wPrices2 wPreds2).trades = cntSell (btRun wPrices2 wPreds2).trades ∨
     cntBuy (btRun wPrices2 wPreds2).trades = cntSell (btRun wPrices2 wPreds2).trades + 1) :=
  ledger_alternation wPrices2 wPreds2

/-- C7: if the simulated run ends still holding a position, the reported final
balance is the held quantity marked to market at the last close price, and the
reported profit_loss is that final balance minus the initial balance 10000. -/
theorem forced_liquidation (prices preds : List ℚ)
    (hlen : preds.length + 60 ≤ prices.length)
    (hhold : holding (btRun prices preds) = true) :
    (btEvaluate prices preds).final_balance =
      ((btRun prices preds).position.getD defaultPosition).quantity * prices.getLastD 0 ∧
    (btEvaluate prices preds).profit_loss =
      (btEvaluate prices preds).final_balance - 10000 := by
  constructor
  · simp [btEvaluate, hhold]
  · simp [btEvaluate]

/-- Evaluation of the simulated run on `wPrices`/`wPreds`: one buy at price 2. -/
theorem btRun_wPrices :
    btRun wPrices wPreds =
      ⟨0, some ⟨true, 2, 10000 / 2⟩, [⟨Signal.buy, 2, none⟩]⟩ := by
  have hp : wPrices.getD (0 + 60) 0 = 2 := rfl
  have hq : wPreds.getD 0 0 = 9/10 := rfl
  have hr : List.range wPreds.length = [0] := rfl
  show (List.range wPreds.length).foldl (btStep wPrices wPreds) ⟨10000, none, []⟩ = _
  rw [hr]
  simp only [List.foldl_cons, List.foldl_nil, btStep, hp, hq,
    decide_eq_true (show (9:ℚ)/10 > 1/2 by norm_num)]
  simp [holding]

/-- Evaluation of the simulated run on `wPrices2`/`wPreds2`: a buy at price 2
followed by a winning sell at price 4. -/
theorem btRun_wPrices2 :
    btRun wPrices2 wPreds2 =
      ⟨10000 / 2 * 4, some ⟨false, 2, 10000 / 2⟩,
       [⟨Signal.buy, 2, none⟩, ⟨Signal.sell, 4, some ((4 - 2) * (10000 / 2))⟩]⟩ := by
  have hp0 : wPrices2.getD (0 + 60) 0 = 2 := rfl
  have hp1 : wPrices2.getD (1 + 60) 0 = 4 := rfl
  have hq0 : wPreds2.getD 0 0 = 9/10 := rfl
  have hq1 : wPreds2.getD 1 0 = 1/10 := rfl
  have hr : List.range wPreds2.length = [0, 1] := rfl
  show (List.range wPreds2.length).foldl (btStep wPrices2 wPreds2) ⟨10000, none, []⟩ = _
  rw [hr]
  simp only [List.foldl_cons, List.foldl_nil]
  rw [show btStep wPrices2 wPreds2 ⟨10000, none, []⟩ 0 =
        ⟨0, some ⟨true, 2, 10000 / 2⟩, [⟨Signal.buy, 2, none⟩]⟩ by
      simp only [btStep, hp0, hq0, decide_eq_true (show (9:ℚ)/10 > 1/2 by norm_num)]
      simp [holding]]
  simp only [btStep, hp1, hq1, decide_eq_false (show ¬ ((1:ℚ)/10 > 1/2) by norm_num)]
  simp [holding]

/-- C7 witness: a run that buys once and ends holding; the final balance is the
position marked to market at the last price. -/
theorem forced_liquidation_witness :
    (btEvaluate wPrices wPreds).final_balance =
      ((btRun wPrices wPreds).position.getD defaultPosition).quantity * wPrices.getLastD 0 ∧
    (btEvaluate wPrices wPreds).profit_loss =
      (btEvaluate wPrices wPreds).final_balance - 10000 :=
  forced_liquidation wPrices wPreds (by decide) (by rw [btRun_wPrices]; rfl)

/-- C8: the win rate is the number of winning sell trades over the number of
sell trades when any sell occurred, and 0 (no division, no error) when no sell
occurred; num_trades is the number of sell trades. -/
theorem win_rate_guard (prices preds : List ℚ)
    (hlen : preds.length + 60 ≤ prices.length) :
    (0 < (sellTrades (btRun prices preds).trades).length →
      (btEvaluate prices preds).win_rate =
        ((winningTrades (btRun prices preds).trades).length : ℚ) /
        ((sellTrades (btRun prices preds).trades).length : ℚ)) ∧
    ((sellTrades (btRun prices preds).trades).length = 0 →
      (btEvaluate prices preds).win_rate = 0) ∧
    (btEvaluate prices preds).num_trades =
      (sellTrades (btRun prices preds).trades).length := by
  refine ⟨?_, ?_, rfl⟩
  · intro h
    simp [btEvaluate, h]
  · intro h
    simp [btEvaluate, h]

/-- C8 witness: a run with one winning sell yields the ratio; a run with no
sells yields win rate 0. -/
theorem win_rate_guard_witness :
    (btEvaluate wPrices2 wPreds2).win_rate =
      ((winningTrades (btRun wPrices2 wPreds2).trades).length : ℚ) /
      ((sellTrades (btRun wPrices2 wPreds2).trades).length : ℚ) ∧
    (btEvaluate wPrices wPreds).win_rate = 0 ∧
    (btEvaluate wPrices2 wPreds2).num_trades =
      (sellTrades (btRun wPrices2 wPreds2).trades).length :=
  ⟨(win_rate_guard wPrices2 wPreds2 (by decide)).1 (by rw [btRun_wPrices2]; decide),
   (win_rate_guard wPrices wPreds (by decide)).2.1 (by rw [btRun_wPrices]; decide),
   (win_rate_guard wPrices2 wPreds2 (by decide)).2.2⟩

/-- C9: deserializing a serialized agent record restores the agent exactly —
agent_id (nonempty by construction), name, strategy type, risk level, trained
flag, performance metrics and nested metadata — provided that, for a trained
agent, no persisted model artifact shadows the record (`from_dict` re-runs
`load_model`, whose filesystem is the explicit `disk` parameter). -/
theorem record_roundtrip (a : Agent) (fresh : String) (disk : Option DiskMeta)
    (hid : a.agent_id ≠ "") (hdisk : a.trained = true → disk = none) :
    from_dict fresh (to_dict a) disk = a := by
  obtain ⟨id, nm, st, rl, tr, pm, md⟩ := a
  simp only [ne_eq] at hid
  cases tr with
  | false =>
    simp only [from_dict, to_dict, initAgent]
    rw [if_neg hid]
    cases md <;> simp
  | true =>
    have hd := hdisk rfl
    subst hd
    simp only [from_dict, to_dict, initAgent, load_model_fields]
    rw [if_neg hid]
    cases md <;> simp

/-- C9 witness: a concrete untrained agent round-trips exactly through
`to_dict`/`from_dict`. -/
theorem record_roundtrip_witness :
    wAgent.agent_id ≠ "" ∧ from_dict "172" (to_dict wAgent) none = wAgent :=
  ⟨by decide, record_roundtrip wAgent "172" none (by decide) (fun _ => rfl)⟩
